import Mathlib

/-!
Shallow embedding of the HRF generator family and small helpers from
`nltools/utils.py`: `_gamma_difference_hrf`, `spm_hrf`, `glover_hrf`,
`spm_time_derivative`, `glover_time_derivative`, `spm_dispersion_derivative`,
`all_same` and `concatenate`.

Real-valued samples are modelled as exact rationals.  The external SciPy
standard gamma density is an abstract parameter `pdf0 : ℚ → ℚ → ℚ`
(`pdf0 x a` is the standardized density with shape `a` evaluated at `x`),
while SciPy's documented location-scale wrapping of a standardized density,
`dist.pdf(x, a, loc, scale) = pdf0 ((x - loc) / scale) a / scale`, is modelled
explicitly: the source passes exactly three positional arguments to
`gamma.pdf`, so its third argument lands in `loc` and `scale` keeps its
default value `1`.
-/

/-- Coercion `int()` that NumPy applies to a floating-point `num` argument of
`np.linspace`: truncation toward zero (floor, for the nonnegative counts that
arise here). -/
def npIntOfRat (q : ℚ) : ℕ := ⌊q⌋.toNat

/-- NumPy `np.linspace(start, stop, num)` with the default inclusive endpoint:
`num` evenly spaced points from `start` to `stop`; a single point is `start`
and zero points is the empty array. -/
def linspace (start stop : ℚ) (num : ℕ) : List ℚ :=
  if num ≤ 1 then (List.range num).map (fun _ => start)
  else (List.range num).map (fun (i : ℕ) => start + (i : ℚ) * ((stop - start) / ((num : ℚ) - 1)))

/-- SciPy location-scale evaluation of a standardized density `pdf0`:
`gammaPdf pdf0 x a loc scale` models `scipy.stats.gamma.pdf(x, a, loc, scale)`
as documented, namely `pdf0((x - loc) / scale, a) / scale`. -/
def gammaPdf (pdf0 : ℚ → ℚ → ℚ) (x a loc scale : ℚ) : ℚ :=
  pdf0 ((x - loc) / scale) a / scale

/-- Time grid of `_gamma_difference_hrf` (utils.py lines 182-184):
`dt = tr / oversampling`, then
`time_stamps = np.linspace(0, time_length, float(time_length) / dt)` (NumPy
coerces the floating-point count to an int), then `time_stamps -= onset / dt`. -/
def timeStamps (tr : ℚ) (oversampling : ℕ) (time_length onset : ℚ) : List ℚ :=
  (linspace 0 time_length (npIntOfRat (time_length / (tr / (oversampling : ℚ))))).map
    (fun t => t - onset / (tr / (oversampling : ℚ)))

/-- Unnormalized kernel of `_gamma_difference_hrf` (utils.py lines 185-187):
`gamma.pdf(time_stamps, delay / dispersion, dt / dispersion) - ratio *
gamma.pdf(time_stamps, undershoot / u_dispersion, dt / u_dispersion)`.
Each `gamma.pdf` call passes three positional arguments, so the third one is
the location `loc` and the scale is the default `1`. -/
def unnormalizedHrf (pdf0 : ℚ → ℚ → ℚ) (tr : ℚ) (oversampling : ℕ)
    (time_length onset delay undershoot dispersion u_dispersion ratio : ℚ) : List ℚ :=
  (timeStamps tr oversampling time_length onset).map (fun t =>
    gammaPdf pdf0 t (delay / dispersion) (tr / (oversampling : ℚ) / dispersion) 1 -
      ratio * gammaPdf pdf0 t (undershoot / u_dispersion)
        (tr / (oversampling : ℚ) / u_dispersion) 1)

/-- Lobes of the unnormalized kernel as the spec describes them: shape
`delay / dispersion` and SCALE `dt / dispersion` with no location shift.  This
definition follows the spec text, to be compared with `unnormalizedHrf`, which
follows the source. -/
def unnormalizedHrfSpec (pdf0 : ℚ → ℚ → ℚ) (tr : ℚ) (oversampling : ℕ)
    (time_length onset delay undershoot dispersion u_dispersion ratio : ℚ) : List ℚ :=
  (timeStamps tr oversampling time_length onset).map (fun t =>
    gammaPdf pdf0 t (delay / dispersion) 0 (tr / (oversampling : ℚ) / dispersion) -
      ratio * gammaPdf pdf0 t (undershoot / u_dispersion) 0
        (tr / (oversampling : ℚ) / u_dispersion))

/-- Source function `_gamma_difference_hrf` (utils.py lines 167-189): the unnormalized
gamma-difference kernel divided pointwise by its own sum (`hrf /= hrf.sum()`),
with no guard on the divisor. -/
def gamma_difference_hrf (pdf0 : ℚ → ℚ → ℚ) (tr : ℚ) (oversampling : ℕ)
    (time_length onset delay undershoot dispersion u_dispersion ratio : ℚ) : List ℚ :=
  (unnormalizedHrf pdf0 tr oversampling time_length onset delay undershoot dispersion
      u_dispersion ratio).map (fun h =>
    h / (unnormalizedHrf pdf0 tr oversampling time_length onset delay undershoot dispersion
      u_dispersion ratio).sum)

/-- Division at IEEE semantics for tracking the degenerate case: a finite
quotient when the divisor is nonzero and a non-finite result (`none`) when
dividing by zero, as a NumPy float division by zero produces `inf` or `nan`. -/
def divIEEE (a b : ℚ) : Option ℚ := if b = 0 then none else some (a / b)

/-- Normalization step of `_gamma_difference_hrf` (utils.py line 188) with the
division modelled at IEEE semantics, so that non-finite outputs are visible. -/
def gamma_difference_hrf_ieee (pdf0 : ℚ → ℚ → ℚ) (tr : ℚ) (oversampling : ℕ)
    (time_length onset delay undershoot dispersion u_dispersion ratio : ℚ) :
    List (Option ℚ) :=
  (unnormalizedHrf pdf0 tr oversampling time_length onset delay undershoot dispersion
      u_dispersion ratio).map (fun h =>
    divIEEE h (unnormalizedHrf pdf0 tr oversampling time_length onset delay undershoot
      dispersion u_dispersion ratio).sum)

/-- Source function `spm_hrf` (utils.py lines 192-207): `_gamma_difference_hrf` at its default
shape parameters `delay=6, undershoot=16., dispersion=1., u_dispersion=1.,
ratio=0.167`. -/
def spm_hrf (pdf0 : ℚ → ℚ → ℚ) (tr : ℚ) (oversampling : ℕ)
    (time_length onset : ℚ) : List ℚ :=
  gamma_difference_hrf pdf0 tr oversampling time_length onset 6 16 1 1 (167 / 1000)

/-- Source function `glover_hrf` (utils.py lines 210-227): `_gamma_difference_hrf` at
`delay=6, undershoot=12., dispersion=.9, u_dispersion=.9, ratio=.35`. -/
def glover_hrf (pdf0 : ℚ → ℚ → ℚ) (tr : ℚ) (oversampling : ℕ)
    (time_length onset : ℚ) : List ℚ :=
  gamma_difference_hrf pdf0 tr oversampling time_length onset 6 12 (9 / 10) (9 / 10) (35 / 100)

/-- Source function `spm_time_derivative` (utils.py lines 230-248): with `do = .1`,
`1. / do * (spm_hrf(..., onset + do) - spm_hrf(..., onset))`, the subtraction
elementwise over the two kernels and the factor applied elementwise. -/
def spm_time_derivative (pdf0 : ℚ → ℚ → ℚ) (tr : ℚ) (oversampling : ℕ)
    (time_length onset : ℚ) : List ℚ :=
  (List.zipWith (fun a b => a - b)
      (spm_hrf pdf0 tr oversampling time_length (onset + 1 / 10))
      (spm_hrf pdf0 tr oversampling time_length onset)).map (fun x => 1 / (1 / 10) * x)

/-- Source function `glover_time_derivative` (utils.py lines 250-268): the same scheme as
`spm_time_derivative` applied to `glover_hrf`. -/
def glover_time_derivative (pdf0 : ℚ → ℚ → ℚ) (tr : ℚ) (oversampling : ℕ)
    (time_length onset : ℚ) : List ℚ :=
  (List.zipWith (fun a b => a - b)
      (glover_hrf pdf0 tr oversampling time_length (onset + 1 / 10))
      (glover_hrf pdf0 tr oversampling time_length onset)).map (fun x => 1 / (1 / 10) * x)

/-- Source function `spm_dispersion_derivative` (utils.py lines 270-289): with `dd = .01`,
`1. / dd * (_gamma_difference_hrf(..., dispersion=1. + dd) - spm_hrf(...))`. -/
def spm_dispersion_derivative (pdf0 : ℚ → ℚ → ℚ) (tr : ℚ) (oversampling : ℕ)
    (time_length onset : ℚ) : List ℚ :=
  (List.zipWith (fun a b => a - b)
      (gamma_difference_hrf pdf0 tr oversampling time_length onset 6 16 (1 + 1 / 100) 1
        (167 / 1000))
      (spm_hrf pdf0 tr oversampling time_length onset)).map (fun x => 1 / (1 / 100) * x)

/-- NumPy semantics of `np.all` applied to a generator argument: `np.asarray`
wraps the generator object in a zero-dimensional object array without
iterating it, and `np.all` returns the truth value of that single object;
generator objects are always truthy, so the would-be elements are never
consulted. -/
def npAllGenerator (_elems : List Bool) : Bool := true

/-- Source function `all_same` (utils.py lines 308-309):
`np.all(x == items[0] for x in items)` — `np.all` receives the generator
expression itself, not the comparison results. -/
def all_same (items : List ℚ) : Bool :=
  npAllGenerator (items.map (fun x => decide (x = items.headD 0)))

/-- Outcome of `concatenate`: a returned object or one of the three raisable
exceptions. -/
inductive ConcatResult (α : Type) where
  | ok (out : α)
  | valueErrorNotList
  | valueErrorSameType
  | indexError
deriving DecidableEq

/-- Truth value of a Python `type` object: every class object is truthy, so
`all([type(x) for x in data])` tests a list of truthy objects. -/
def typeTruthy {α : Type} (_x : α) : Bool := true

/-- Source function `concatenate` (utils.py lines 311-328) over an abstract object type `α`:
`none` models a non-list argument, `classNew x` models `x.__class__()`, and
`append` models `out.append(i)`.  The source raises ValueError when `data` is
not a list, evaluates `all([type(x) for x in data])`, and in the then-branch
reads `data[0]` (an IndexError on an empty list) before folding `append` over
the whole list; the else-branch raises the second ValueError. -/
def concatenate {α : Type} (classNew : α → α) (append : α → α → α)
    (data : Option (List α)) : ConcatResult α :=
  match data with
  | none => ConcatResult.valueErrorNotList
  | some xs =>
    if ((xs.map (fun x => typeTruthy x)).all (fun b => b)) then
      match xs with
      | [] => ConcatResult.indexError
      | x :: _ => ConcatResult.ok (xs.foldl append (classNew x))
    else ConcatResult.valueErrorSameType

/-! Helper lemmas shared by the claim theorems. -/

lemma sum_map_div_eq (l : List ℚ) (s : ℚ) : (l.map (fun x => x / s)).sum = l.sum / s := by
  induction l with
  | nil => simp
  | cons a t ih => simp [ih, add_div]

lemma length_linspace (a b : ℚ) (n : ℕ) : (linspace a b n).length = n := by
  unfold linspace
  split <;> rw [List.length_map, List.length_range]

lemma length_timeStamps (tr : ℚ) (os : ℕ) (tl onset : ℚ) :
    (timeStamps tr os tl onset).length = npIntOfRat (tl / (tr / (os : ℚ))) := by
  simp [timeStamps, length_linspace]

lemma length_unnormalizedHrf (pdf0 : ℚ → ℚ → ℚ) (tr : ℚ) (os : ℕ)
    (tl onset delay undershoot dispersion u_dispersion ratio : ℚ) :
    (unnormalizedHrf pdf0 tr os tl onset delay undershoot dispersion u_dispersion
      ratio).length = npIntOfRat (tl / (tr / (os : ℚ))) := by
  simp [unnormalizedHrf, length_timeStamps]

lemma length_gamma_difference_hrf (pdf0 : ℚ → ℚ → ℚ) (tr : ℚ) (os : ℕ)
    (tl onset delay undershoot dispersion u_dispersion ratio : ℚ) :
    (gamma_difference_hrf pdf0 tr os tl onset delay undershoot dispersion u_dispersion
      ratio).length = npIntOfRat (tl / (tr / (os : ℚ))) := by
  simp [gamma_difference_hrf, length_unnormalizedHrf]

lemma map_const_none (l : List ℚ) :
    l.map (fun _ => (none : Option ℚ)) = List.replicate l.length none := by
  induction l with
  | nil => rfl
  | cons a t ih => simp [ih, List.replicate_succ]

lemma npIntOfRat_two : npIntOfRat (2 : ℚ) = 2 := by
  norm_num [npIntOfRat]
  decide

lemma npIntOfRat_three : npIntOfRat (3 : ℚ) = 3 := by
  norm_num [npIntOfRat]
  decide

/-! Claim theorems. -/

/-- C1: for every repetition time (and any oversampling, time_length and
onset), the kernels returned by `spm_hrf` and `glover_hrf` sum to 1, and the
normalization — division of every sample by the sum of all samples — is applied
after the gamma-difference construction.  The nonzero-sum hypotheses encode the
degenerate case the spec itself excludes. -/
theorem hrf_kernel_sums_to_one (pdf0 : ℚ → ℚ → ℚ) (tr : ℚ) (os : ℕ) (tl onset : ℚ)
    (hs : (unnormalizedHrf pdf0 tr os tl onset 6 16 1 1 (167 / 1000)).sum ≠ 0)
    (hg : (unnormalizedHrf pdf0 tr os tl onset 6 12 (9 / 10) (9 / 10) (35 / 100)).sum ≠ 0) :
    (spm_hrf pdf0 tr os tl onset).sum = 1 ∧
    (glover_hrf pdf0 tr os tl onset).sum = 1 ∧
    spm_hrf pdf0 tr os tl onset =
      (unnormalizedHrf pdf0 tr os tl onset 6 16 1 1 (167 / 1000)).map
        (fun h => h / (unnormalizedHrf pdf0 tr os tl onset 6 16 1 1 (167 / 1000)).sum) := by
  refine ⟨?_, ?_, rfl⟩
  · show ((unnormalizedHrf pdf0 tr os tl onset 6 16 1 1 (167 / 1000)).map
      (fun h => h / (unnormalizedHrf pdf0 tr os tl onset 6 16 1 1 (167 / 1000)).sum)).sum = 1
    rw [sum_map_div_eq, div_self hs]
  · show ((unnormalizedHrf pdf0 tr os tl onset 6 12 (9 / 10) (9 / 10) (35 / 100)).map
      (fun h => h /
        (unnormalizedHrf pdf0 tr os tl onset 6 12 (9 / 10) (9 / 10) (35 / 100)).sum)).sum = 1
    rw [sum_map_div_eq, div_self hg]

theorem hrf_kernel_sums_to_one_witness :
    (unnormalizedHrf (fun _ _ => 1) 1 1 2 0 6 16 1 1 (167 / 1000)).sum ≠ 0 ∧
    (spm_hrf (fun _ _ => 1) 1 1 2 0).sum = 1 ∧
    (glover_hrf (fun _ _ => 1) 1 1 2 0).sum = 1 := by
  have hs : (unnormalizedHrf (fun _ _ => 1) 1 1 2 0 6 16 1 1 (167 / 1000)).sum ≠ 0 := by
    norm_num [unnormalizedHrf, timeStamps, linspace, gammaPdf, npIntOfRat_two, List.range_succ]
  have hg : (unnormalizedHrf (fun _ _ => 1) 1 1 2 0 6 12 (9 / 10) (9 / 10) (35 / 100)).sum ≠ 0 := by
    norm_num [unnormalizedHrf, timeStamps, linspace, gammaPdf, npIntOfRat_two, List.range_succ]
  exact ⟨hs, (hrf_kernel_sums_to_one (fun _ _ => 1) 1 1 2 0 hs hg).1,
    (hrf_kernel_sums_to_one (fun _ _ => 1) 1 1 2 0 hs hg).2.1⟩

/-- C2 (counterexample): the unnormalized kernel computed by the source is not
the spec's "shape `delay/dispersion`, scale `dt/dispersion`" pointwise gamma
difference: at `tr = 1, oversampling = 1, time_length = 2, onset = 0` with
`delay = 2, undershoot = 3, dispersion = u_dispersion = 1, ratio = 0` and the
standardized density `fun x _ => x`, the source yields `[-1, 1]` while the
spec's formula yields `[0, 2]`. -/
theorem gamma_lobe_scale_counterexample :
    unnormalizedHrf (fun x _ => x) 1 1 2 0 2 3 1 1 0 ≠
      unnormalizedHrfSpec (fun x _ => x) 1 1 2 0 2 3 1 1 0 := by
  norm_num [unnormalizedHrf, unnormalizedHrfSpec, timeStamps, linspace, gammaPdf,
    npIntOfRat_two, List.range_succ]

/-- C2 (amended): before normalization, the source computes at every shifted
grid point the standardized gamma density with shape `delay/dispersion`
evaluated at `t - dt/dispersion` (location shift `dt/dispersion`, unit scale),
minus `ratio` times the standardized density with shape
`undershoot/u_dispersion` evaluated at `t - dt/u_dispersion`: the third
positional argument of `scipy.stats.gamma.pdf` is `loc`, not `scale`. -/
theorem gamma_lobe_location_shift (pdf0 : ℚ → ℚ → ℚ) (tr : ℚ) (os : ℕ)
    (tl onset delay undershoot dispersion u_dispersion ratio : ℚ) :
    unnormalizedHrf pdf0 tr os tl onset delay undershoot dispersion u_dispersion ratio =
      (timeStamps tr os tl onset).map (fun t =>
        pdf0 (t - (tr / (os : ℚ)) / dispersion) (delay / dispersion) -
          ratio * pdf0 (t - (tr / (os : ℚ)) / u_dispersion) (undershoot / u_dispersion)) := by
  simp [unnormalizedHrf, gammaPdf]

/-- C3: the time grid is `N` evenly spaced points over `[0, time_length]` with
`dt = tr / oversampling` and `N` the integer count obtained from the ratio
`time_length / dt` (truncated by NumPy's `int()` coercion), each grid point
then decreased by `onset / dt`. -/
theorem time_grid_construction (tr : ℚ) (os : ℕ) (tl onset : ℚ)
    (h2 : 2 ≤ npIntOfRat (tl / (tr / (os : ℚ)))) :
    (timeStamps tr os tl onset).length = npIntOfRat (tl / (tr / (os : ℚ))) ∧
    timeStamps tr os tl onset =
      (List.range (npIntOfRat (tl / (tr / (os : ℚ))))).map
        (fun (i : ℕ) => (i : ℚ) * (tl / ((npIntOfRat (tl / (tr / (os : ℚ))) : ℚ) - 1)) -
          onset / (tr / (os : ℚ))) := by
  refine ⟨length_timeStamps tr os tl onset, ?_⟩
  unfold timeStamps linspace
  rw [if_neg (by omega)]
  rw [List.map_map]
  refine List.map_congr_left ?_
  intro i _
  simp only [Function.comp_apply]
  ring

theorem time_grid_construction_witness : timeStamps 1 1 2 5 = [-5, -3] := by
  have hN : npIntOfRat (2 / (1 / ((1 : ℕ) : ℚ))) = 2 := by
    norm_num [npIntOfRat_two]
  rw [(time_grid_construction 1 1 2 5 (by rw [hN])).2]
  rw [hN]
  norm_num [List.range_succ]

/-- C4: each derivative variant is the pointwise forward finite difference of
its base HRF: `spm_time_derivative` is `(spm_hrf(onset + 0.1) - spm_hrf(onset))
/ 0.1`, `glover_time_derivative` is the identical scheme on `glover_hrf`, and
`spm_dispersion_derivative` is `(_gamma_difference_hrf(dispersion = 1 + 0.01) -
spm_hrf) / 0.01`. -/
theorem finite_difference_derivatives (pdf0 : ℚ → ℚ → ℚ) (tr : ℚ) (os : ℕ)
    (tl onset : ℚ) :
    spm_time_derivative pdf0 tr os tl onset =
      List.zipWith (fun a b => (a - b) / (1 / 10))
        (spm_hrf pdf0 tr os tl (onset + 1 / 10)) (spm_hrf pdf0 tr os tl onset) ∧
    glover_time_derivative pdf0 tr os tl onset =
      List.zipWith (fun a b => (a - b) / (1 / 10))
        (glover_hrf pdf0 tr os tl (onset + 1 / 10)) (glover_hrf pdf0 tr os tl onset) ∧
    spm_dispersion_derivative pdf0 tr os tl onset =
      List.zipWith (fun a b => (a - b) / (1 / 100))
        (gamma_difference_hrf pdf0 tr os tl onset 6 16 (1 + 1 / 100) 1 (167 / 1000))
        (spm_hrf pdf0 tr os tl onset) := by
  have h10 : (fun a b : ℚ => 1 / (1 / 10) * (a - b)) = fun a b => (a - b) / (1 / 10) := by
    funext a b
    ring
  have h100 : (fun a b : ℚ => 1 / (1 / 100) * (a - b)) = fun a b => (a - b) / (1 / 100) := by
    funext a b
    ring
  refine ⟨?_, ?_, ?_⟩
  · unfold spm_time_derivative
    rw [List.map_zipWith, h10]
  · unfold glover_time_derivative
    rw [List.map_zipWith, h10]
  · unfold spm_dispersion_derivative
    rw [List.map_zipWith, h100]

/-- C5: `spm_hrf` is `_gamma_difference_hrf` with `delay = 6, undershoot = 16,
dispersion = 1, u_dispersion = 1, ratio = 0.167`, and `glover_hrf` is
`_gamma_difference_hrf` with `delay = 6, undershoot = 12, dispersion = 0.9,
u_dispersion = 0.9, ratio = 0.35`, at every argument tuple. -/
theorem named_variant_parameters (pdf0 : ℚ → ℚ → ℚ) (tr : ℚ) (os : ℕ)
    (tl onset : ℚ) :
    spm_hrf pdf0 tr os tl onset =
      gamma_difference_hrf pdf0 tr os tl onset 6 16 1 1 (167 / 1000) ∧
    glover_hrf pdf0 tr os tl onset =
      gamma_difference_hrf pdf0 tr os tl onset 6 12 (9 / 10) (9 / 10) (35 / 100) :=
  ⟨rfl, rfl⟩

/-- C6: the kernel length depends only on `(tr, oversampling, time_length)` —
not on the onset, the shape parameters, or the density — so `spm_hrf` and
`glover_hrf` agree in length (while their contents can differ, witnessed by a
concrete density), and `spm_time_derivative` has the same length as `spm_hrf`. -/
theorem kernel_length_and_contents :
    (∀ (pdf0 pdf1 : ℚ → ℚ → ℚ) (tr : ℚ) (os : ℕ)
      (tl o1 o2 d1 d2 u1 u2 dp1 dp2 ud1 ud2 r1 r2 : ℚ),
      (gamma_difference_hrf pdf0 tr os tl o1 d1 u1 dp1 ud1 r1).length =
        (gamma_difference_hrf pdf1 tr os tl o2 d2 u2 dp2 ud2 r2).length) ∧
    (∀ (pdf0 : ℚ → ℚ → ℚ) (tr : ℚ) (os : ℕ) (tl : ℚ),
      (spm_time_derivative pdf0 tr os tl 0).length =
        (spm_hrf pdf0 tr os tl 0).length) ∧
    (∃ pdf0 : ℚ → ℚ → ℚ, ∃ tr : ℚ, ∃ os : ℕ, ∃ tl : ℚ,
      (spm_hrf pdf0 tr os tl 0).length = (glover_hrf pdf0 tr os tl 0).length ∧
      spm_hrf pdf0 tr os tl 0 ≠ glover_hrf pdf0 tr os tl 0) := by
  refine ⟨?_, ?_, ⟨fun x a => x * a * a, 1, 1, 3, ?_, ?_⟩⟩
  · intro pdf0 pdf1 tr os tl o1 o2 d1 d2 u1 u2 dp1 dp2 ud1 ud2 r1 r2
    rw [length_gamma_difference_hrf, length_gamma_difference_hrf]
  · intro pdf0 tr os tl
    unfold spm_time_derivative spm_hrf
    rw [List.length_map, List.length_zipWith, length_gamma_difference_hrf,
      length_gamma_difference_hrf]
    exact Nat.min_self _
  · unfold spm_hrf glover_hrf
    rw [length_gamma_difference_hrf, length_gamma_difference_hrf]
  · norm_num [spm_hrf, glover_hrf, gamma_difference_hrf, unnormalizedHrf, timeStamps,
      linspace, gammaPdf, npIntOfRat_three, List.range_succ]

/-- C7: when the unnormalized gamma-difference kernel sums to exactly zero,
`_gamma_difference_hrf` neither raises nor guards the division: it still
returns a full-length kernel, every sample of which is the non-finite result
of a division by zero. -/
theorem zero_sum_normalization (pdf0 : ℚ → ℚ → ℚ) (tr : ℚ) (os : ℕ)
    (tl onset delay undershoot dispersion u_dispersion ratio : ℚ)
    (h : (unnormalizedHrf pdf0 tr os tl onset delay undershoot dispersion u_dispersion
      ratio).sum = 0) :
    gamma_difference_hrf_ieee pdf0 tr os tl onset delay undershoot dispersion u_dispersion
      ratio =
      List.replicate (unnormalizedHrf pdf0 tr os tl onset delay undershoot dispersion
        u_dispersion ratio).length none := by
  show (unnormalizedHrf pdf0 tr os tl onset delay undershoot dispersion u_dispersion
    ratio).map (fun x => divIEEE x (unnormalizedHrf pdf0 tr os tl onset delay undershoot
      dispersion u_dispersion ratio).sum) = _
  rw [h]
  simp only [divIEEE, if_pos rfl]
  exact map_const_none _

theorem zero_sum_normalization_witness :
    gamma_difference_hrf_ieee (fun _ _ => 0) 1 1 2 0 6 16 1 1 (167 / 1000) =
      [none, none] := by
  rw [zero_sum_normalization (fun _ _ => 0) 1 1 2 0 6 16 1 1 (167 / 1000) (by
    norm_num [unnormalizedHrf, timeStamps, linspace, gammaPdf, npIntOfRat_two,
      List.range_succ])]
  rw [length_unnormalizedHrf]
  have hN : npIntOfRat (2 / (1 / ((1 : ℕ) : ℚ))) = 2 := by
    norm_num [npIntOfRat_two]
  rw [hN]
  rfl

/-- C8: every HRF function is deterministic — two calls with identical numeric
arguments (and the same underlying density) return identical output sequences;
the embedding is a pure function of its inputs with no hidden state. -/
theorem hrf_determinism (pdf0 : ℚ → ℚ → ℚ) (tr tr2 : ℚ) (os os2 : ℕ)
    (tl tl2 onset onset2 delay delay2 undershoot undershoot2 dispersion dispersion2
      u_dispersion u_dispersion2 ratio ratio2 : ℚ)
    (htr : tr = tr2) (hos : os = os2) (htl : tl = tl2) (ho : onset = onset2)
    (hd : delay = delay2) (hu : undershoot = undershoot2)
    (hdp : dispersion = dispersion2) (hud : u_dispersion = u_dispersion2)
    (hr : ratio = ratio2) :
    gamma_difference_hrf pdf0 tr os tl onset delay undershoot dispersion u_dispersion
        ratio =
      gamma_difference_hrf pdf0 tr2 os2 tl2 onset2 delay2 undershoot2 dispersion2
        u_dispersion2 ratio2 ∧
    spm_hrf pdf0 tr os tl onset = spm_hrf pdf0 tr2 os2 tl2 onset2 ∧
    glover_hrf pdf0 tr os tl onset = glover_hrf pdf0 tr2 os2 tl2 onset2 ∧
    spm_time_derivative pdf0 tr os tl onset = spm_time_derivative pdf0 tr2 os2 tl2 onset2 ∧
    glover_time_derivative pdf0 tr os tl onset =
      glover_time_derivative pdf0 tr2 os2 tl2 onset2 ∧
    spm_dispersion_derivative pdf0 tr os tl onset =
      spm_dispersion_derivative pdf0 tr2 os2 tl2 onset2 := by
  subst htr hos htl ho hd hu hdp hud hr
  exact ⟨rfl, rfl, rfl, rfl, rfl, rfl⟩

theorem hrf_determinism_witness :
    spm_hrf (fun _ _ => 1) 1 1 2 0 = spm_hrf (fun _ _ => 1) 1 1 2 0 :=
  (hrf_determinism (fun _ _ => 1) 1 1 1 1 2 2 0 0 6 6 16 16 1 1 1 1 (167 / 1000)
    (167 / 1000) rfl rfl rfl rfl rfl rfl rfl rfl rfl).2.1

/-- C9: for every non-empty list, `all_same` returns a truthy value regardless
of whether the elements are equal, because `np.all` receives the generator
expression itself — a single truthy object — instead of the elementwise
comparison results. -/
theorem all_same_truthy (items : List ℚ) (h : items ≠ []) : all_same items = true := rfl

theorem all_same_truthy_witness :
    ([(1 : ℚ), 2] ≠ []) ∧ (1 : ℚ) ≠ 2 ∧ all_same [1, 2] = true :=
  ⟨by decide, by decide, all_same_truthy [1, 2] (by decide)⟩

/-- C10: `concatenate` raises ValueError exactly when its argument is not a
list; the second ValueError branch (type-uniformity message) is unreachable
because `all([type(x) for x in data])` is true for every list, and the empty
list instead fails with an IndexError at `data[0]`. -/
theorem concatenate_value_error_conditions {α : Type} (classNew : α → α)
    (append : α → α → α) (data : Option (List α)) :
    ((concatenate classNew append data = ConcatResult.valueErrorNotList ∨
        concatenate classNew append data = ConcatResult.valueErrorSameType) ↔
      data = none) ∧
    concatenate classNew append data ≠ ConcatResult.valueErrorSameType ∧
    concatenate classNew append (some ([] : List α)) = ConcatResult.indexError := by
  refine ⟨?_, ?_, by simp [concatenate, typeTruthy]⟩
  · cases data with
    | none => simp [concatenate]
    | some xs =>
      cases xs with
      | nil => simp [concatenate, typeTruthy]
      | cons x t => simp [concatenate, typeTruthy]
  · cases data with
    | none => simp [concatenate]
    | some xs =>
      cases xs with
      | nil => simp [concatenate, typeTruthy]
      | cons x t => simp [concatenate, typeTruthy]
